import Mathlib

/-!
Verification of the ring-membership and routing core of a Chord DHT node
(`src/app/ChordNode.ts`).  The TypeScript class is shallowly embedded:
node references and the mutable per-node state become structures, every
remote call becomes an oracle parameter (the outcome of that call, with
the source's `catch` handlers applied explicitly), and the JavaScript
loops become structural / fuel recursion mirroring the source's loop
counters.

The helper module `src/app/utils.ts` (providing `isInModuloRange`,
`HASH_BIT_LENGTH` and `NULL_NODE`) is not part of the sources; those
three items are modelled from the specification text (§4.1, §3), as
marked on their doc comments.
-/

namespace Chord

/-- NodeRef from the source: a triple `(id, host, port)`; any field may be
`null`, which we model with `Option`. -/
structure Node where
  id : Option Nat
  host : Option String
  port : Option Nat
deriving DecidableEq, Repr

/-- Modelled from the spec (§3, utils.ts is absent from the sources):
the sentinel `NULL_NODE = (id=null, host=null, port=null)`. -/
def NULL_NODE : Node := ⟨none, none, none⟩

/-- FingerTableEntry from the source: `(start, successor)`. -/
structure FingerTableEntry where
  start : Option Nat
  successor : Node
deriving DecidableEq, Repr

/-- Mutable per-node state of the `ChordNode` class (the fields the
claims are about). -/
structure ChordState where
  id : Option Nat
  host : Option String
  port : Option Nat
  fingerTable : List FingerTableEntry
  successorTable : List Node
  predecessor : Node
deriving DecidableEq, Repr

/-- Source `encapsulateSelf()`: the node's own NodeRef. -/
def encapsulateSelf (st : ChordState) : Node := ⟨st.id, st.host, st.port⟩

/-- Modelled from the spec (§4.1, utils.ts is absent from the sources):
`isInModuloRange(value, low, lowInclusive, high, highInclusive)` tests
whether `value` lies on the clockwise arc from `low` to `high` of the
identifier ring.  When `low = high` the arc is the whole ring (true for
any value iff an endpoint is inclusive); when `low < high` it is the
standard interval; when `low > high` the arc wraps through 0 and the two
endpoint constraints are disjunctive. -/
def isInModuloRange (value low : Nat) (lowInc : Bool) (high : Nat) (highInc : Bool) : Bool :=
  if low = high then lowInc || highInc
  else if low < high then
    (if lowInc then decide (low ≤ value) else decide (low < value)) &&
    (if highInc then decide (value ≤ high) else decide (value < high))
  else
    (if lowInc then decide (low ≤ value) else decide (low < value)) ||
    (if highInc then decide (value ≤ high) else decide (value < high))

/-- Modelled from the spec: lift of `isInModuloRange` to nullable
identifiers.  The spec defines the predicate only on m-bit integers and
states that callers must test `id` for null before use; a null argument
is therefore treated as lying in no arc. -/
def isInModuloRangeO (value low : Option Nat) (lowInc : Bool) (high : Option Nat) (highInc : Bool) : Bool :=
  match value, low, high with
  | some v, some lo, some hi => isInModuloRange v lo lowInc hi highInc
  | _, _, _ => false

/-- Outcome of a fallible call with the source's `catch` handler applied:
an error is replaced by `NULL_NODE`. -/
def orNullNode : Except Unit Node → Node
  | .ok n => n
  | .error _ => NULL_NODE

/-- Source `notify(message, callback)` (lines 966–975): if the current
predecessor's id is null, or the incoming node's id lies strictly inside
the clockwise arc from the predecessor's id to the node's own id, adopt
the incoming node as predecessor. -/
def notify (st : ChordState) (nPrime : Node) : ChordState :=
  if st.predecessor.id = none ∨
      isInModuloRangeO nPrime.id st.predecessor.id false st.id false = true then
    { st with predecessor := nPrime }
  else st

/-- Source `setPredecessor(message, callback)` (lines 398–416): replace
the predecessor with the request's node unconditionally. -/
def setPredecessor (st : ChordState) (request : Node) : ChordState :=
  { st with predecessor := request }

/-- Source `findPredecessor(id)` while-loop (lines 216–250).  The two
remote calls of each body iteration are oracle parameters: `cpf` is the
outcome of `closestPrecedingFinger(id, nPrime)` and `gs` the outcome of
`getSuccessor(nPrime)`; their `catch` handlers replace an error by
`NULL_NODE` (`orNullNode`).  The source counts down `iterationCounter`
from `2 ** HASH_BIT_LENGTH * HASH_BIT_LENGTH` and loops while it is
`>= 0`; `fuel = iterationCounter + 1` so the loop body runs while
`fuel > 0`.  Besides the source's return value `nPrime` we also expose
the final `nPrimeSuccessor` and the number of body iterations executed,
so the exit condition and the hop count can be stated. -/
def findPredecessorLoop (cpf : Nat → Node → Except Unit Node)
    (gs : Node → Except Unit Node) (id : Nat) :
    Nat → Node → Node → Node × Node × Nat
  | 0, nPrime, nPrimeSucc => (nPrime, nPrimeSucc, 0)
  | fuel + 1, nPrime, nPrimeSucc =>
    if isInModuloRangeO (some id) nPrime.id false nPrimeSucc.id true = false ∧
        nPrime.id ≠ nPrimeSucc.id then
      let n2 := orNullNode (cpf id nPrime)
      let s2 := orNullNode (gs n2)
      let r := findPredecessorLoop cpf gs id fuel n2 s2
      (r.1, r.2.1, r.2.2 + 1)
    else (nPrime, nPrimeSucc, 0)

/-- Source `findPredecessor(id)` (lines 198–253): start from self, fetch
self's successor (catch replaces an error by `NULL_NODE`), then run the
advancing loop with the counter initialized to `2^m · m`. -/
def findPredecessor (m : Nat) (cpf : Nat → Node → Except Unit Node)
    (gs : Node → Except Unit Node) (self : Node) (id : Nat) : Node × Node × Nat :=
  findPredecessorLoop cpf gs id (2 ^ m * m + 1) self (orNullNode (gs self))

theorem findPredecessorLoop_le (cpf : Nat → Node → Except Unit Node)
    (gs : Node → Except Unit Node) (id : Nat) :
    ∀ (fuel : Nat) (np ns : Node),
      (findPredecessorLoop cpf gs id fuel np ns).2.2 ≤ fuel ∧
      ((findPredecessorLoop cpf gs id fuel np ns).2.2 < fuel →
        isInModuloRangeO (some id) (findPredecessorLoop cpf gs id fuel np ns).1.id false
          (findPredecessorLoop cpf gs id fuel np ns).2.1.id true = true ∨
        (findPredecessorLoop cpf gs id fuel np ns).1.id =
          (findPredecessorLoop cpf gs id fuel np ns).2.1.id)
  | 0, np, ns => by simp [findPredecessorLoop]
  | fuel + 1, np, ns => by
    have ih := findPredecessorLoop_le cpf gs id fuel (orNullNode (cpf id np))
      (orNullNode (gs (orNullNode (cpf id np))))
    by_cases h : isInModuloRangeO (some id) np.id false ns.id true = false ∧ np.id ≠ ns.id
    · simp only [findPredecessorLoop, if_pos h]
      exact ⟨Nat.succ_le_succ ih.1, fun hlt => ih.2 (Nat.lt_of_succ_lt_succ hlt)⟩
    · simp only [findPredecessorLoop, if_neg h]
      refine ⟨Nat.zero_le _, fun _ => ?_⟩
      rcases not_and_or.mp h with h1 | h2
      · left; simpa using h1
      · right; simpa using h2

/-- C1 (amended): the `findPredecessor` advancing loop always
terminates; it exits when the sought id lies in the right-inclusive
clockwise arc from the current node's id to its successor's id, or when
those two ids are equal, or via the iteration cap — which permits
`m·2^m + 1` body iterations (the counter starts at `m·2^m` and the loop
runs while it is `≥ 0`), so a single lookup performs at most
`m·2^m + 1` `closestPrecedingFinger`/`getSuccessor` hops. -/
theorem findPredecessor_terminates_hop_cap (m : Nat)
    (cpf : Nat → Node → Except Unit Node) (gs : Node → Except Unit Node)
    (self : Node) (id : Nat) :
    (findPredecessor m cpf gs self id).2.2 ≤ 2 ^ m * m + 1 ∧
    ((findPredecessor m cpf gs self id).2.2 < 2 ^ m * m + 1 →
      isInModuloRangeO (some id) (findPredecessor m cpf gs self id).1.id false
        (findPredecessor m cpf gs self id).2.1.id true = true ∨
      (findPredecessor m cpf gs self id).1.id =
        (findPredecessor m cpf gs self id).2.1.id) :=
  findPredecessorLoop_le cpf gs id (2 ^ m * m + 1) self (orNullNode (gs self))

/-- Witness for C1's amended theorem at a concrete input: a ring of one
(every call answers a node of id 1) exits the loop immediately, below
the cap, so the exit-condition disjunction holds there. -/
theorem findPredecessor_terminates_hop_cap_witness :
    isInModuloRangeO (some 0)
        (findPredecessor 3 (fun _ _ => .ok ⟨some 1, none, none⟩)
          (fun _ => .ok ⟨some 1, none, none⟩) ⟨some 1, none, none⟩ 0).1.id false
        (findPredecessor 3 (fun _ _ => .ok ⟨some 1, none, none⟩)
          (fun _ => .ok ⟨some 1, none, none⟩) ⟨some 1, none, none⟩ 0).2.1.id true = true ∨
      (findPredecessor 3 (fun _ _ => .ok ⟨some 1, none, none⟩)
          (fun _ => .ok ⟨some 1, none, none⟩) ⟨some 1, none, none⟩ 0).1.id =
        (findPredecessor 3 (fun _ _ => .ok ⟨some 1, none, none⟩)
          (fun _ => .ok ⟨some 1, none, none⟩) ⟨some 1, none, none⟩ 0).2.1.id :=
  (findPredecessor_terminates_hop_cap 3 (fun _ _ => .ok ⟨some 1, none, none⟩)
    (fun _ => .ok ⟨some 1, none, none⟩) ⟨some 1, none, none⟩ 0).2 (by decide)

/-- C1 counterexample to the claim as stated: with m = 3, a self node of
id 1 and oracles in which every `closestPrecedingFinger` call answers a
node of id 1 and every `getSuccessor` call answers a node of id 2, the
lookup for id 0 executes 25 loop-body iterations — one
`closestPrecedingFinger` hop each — which exceeds the claimed cap of
`m·2^m = 24` hops. -/
theorem findPredecessor_cap_counterexample :
    (findPredecessor 3 (fun _ _ => .ok ⟨some 1, none, none⟩)
        (fun _ => .ok ⟨some 2, none, none⟩) ⟨some 1, none, none⟩ 0).2.2 = 25 ∧
    ¬ ((findPredecessor 3 (fun _ _ => .ok ⟨some 1, none, none⟩)
        (fun _ => .ok ⟨some 2, none, none⟩) ⟨some 1, none, none⟩ 0).2.2 ≤ 2 ^ 3 * 3) := by
  constructor
  · decide
  · decide

/-- Action taken by `joinCluster` after the finger-table slots are
filled: abort on an unexpected hash collision (lines 425–433), build the
table from a known peer and update the others (lines 444–450), or start
as the sole node (lines 451–454). -/
inductive JoinAction where
  | exitCollision
  | initAndUpdate
  | soleNode
deriving DecidableEq, Repr

/-- JavaScript truthiness of a possibly-absent numeric identifier:
`null`, `undefined` and `0` are falsy. -/
def idTruthy : Option Nat → Bool
  | none => false
  | some n => decide (n ≠ 0)

/-- Source lines 420–422: `if (!this.id) this.id = await
computeHostPortHash(this.host, this.port)` — a falsy stored id (absent
or 0) is replaced by the hash of the node's address.  The hash function
is injectable per the spec and is a parameter. -/
def fillId (hash : String → Nat → Nat) (host : String) (port : Nat) (id0 : Option Nat) : Nat :=
  if idTruthy id0 = true then id0.getD 0 else hash host port

/-- Source `joinCluster()` branch structure (lines 418–454): after both
ids are filled, exit on a distinct-address hash collision; otherwise
take the `initFingerTable` + `updateOthers` branch iff
`this.knownId && !(this.id == this.knownId)` — i.e. the known id is
truthy (nonzero) and differs from the own id — and otherwise become the
sole node (`predecessor = self`). -/
def joinClusterDecision (hash : String → Nat → Nat) (host : String) (port : Nat)
    (knownHost : String) (knownPort : Nat) (id0 knownId0 : Option Nat) : JoinAction :=
  if (host ≠ knownHost ∨ port ≠ knownPort) ∧
      fillId hash host port id0 = fillId hash knownHost knownPort knownId0 then
    .exitCollision
  else if fillId hash knownHost knownPort knownId0 ≠ 0 ∧
      fillId hash host port id0 ≠ fillId hash knownHost knownPort knownId0 then
    .initAndUpdate
  else
    .soleNode

/-- C2 (amended): the branch choice of `joinCluster` depends on the
truthiness of the known id, not merely on its difference from the own
id: a distinct-address hash collision aborts the process; otherwise a
known id of 0 (JS falsy) forces the sole-node branch even when it
differs from the own id; and when the known id is nonzero the
`initFingerTable`/`updateOthers` branch is taken exactly when the two
ids differ. -/
theorem joinCluster_branch (hash : String → Nat → Nat) (host : String) (port : Nat)
    (knownHost : String) (knownPort : Nat) (id0 knownId0 : Option Nat) :
    (((host ≠ knownHost ∨ port ≠ knownPort) ∧
        fillId hash host port id0 = fillId hash knownHost knownPort knownId0) →
      joinClusterDecision hash host port knownHost knownPort id0 knownId0 = .exitCollision) ∧
    (¬ ((host ≠ knownHost ∨ port ≠ knownPort) ∧
        fillId hash host port id0 = fillId hash knownHost knownPort knownId0) →
      fillId hash knownHost knownPort knownId0 = 0 →
      joinClusterDecision hash host port knownHost knownPort id0 knownId0 = .soleNode) ∧
    (¬ ((host ≠ knownHost ∨ port ≠ knownPort) ∧
        fillId hash host port id0 = fillId hash knownHost knownPort knownId0) →
      fillId hash knownHost knownPort knownId0 ≠ 0 →
      (joinClusterDecision hash host port knownHost knownPort id0 knownId0 = .initAndUpdate ↔
        fillId hash host port id0 ≠ fillId hash knownHost knownPort knownId0)) := by
  unfold joinClusterDecision
  split_ifs with h1 h2
  · exact ⟨fun _ => rfl, fun hc _ => absurd h1 hc, fun hc _ => absurd h1 hc⟩
  · exact ⟨fun hc => absurd hc h1, fun _ hk => absurd hk h2.1,
      fun _ _ => ⟨fun _ => h2.2, fun _ => rfl⟩⟩
  · refine ⟨fun hc => absurd hc h1, fun _ _ => rfl, fun _ hk => ?_⟩
    constructor
    · intro habs; exact absurd habs (by decide)
    · intro hne; exact absurd ⟨hk, hne⟩ h2

/-- Witness for C2's amended theorem at a concrete input: own port 1 and
known port 2 with the hash returning the port, so the ids are 1 and 2;
the nonzero-known-id branch characterization yields the
`initAndUpdate` action. -/
theorem joinCluster_branch_witness :
    joinClusterDecision (fun _ p => p) "h" 1 "h" 2 none none = .initAndUpdate :=
  ((joinCluster_branch (fun _ p => p) "h" 1 "h" 2 none none).2.2
    (by decide) (by decide)).mpr (by decide)

/-- C2 counterexample to the claim as stated: a known peer at the same
host but a different port whose address hashes to identifier 0, while
the own address hashes to 1.  The known peer was provided and its
identifier (0) differs from the own identifier (1), yet `joinCluster`
takes the sole-node branch rather than calling
`initFingerTable`/`updateOthers`, because `this.knownId` (0) is falsy. -/
theorem joinCluster_branch_counterexample :
    fillId (fun _ p => if p = 1 then 1 else 0) "h" 1 none = 1 ∧
    fillId (fun _ p => if p = 1 then 1 else 0) "h" 2 none = 0 ∧
    joinClusterDecision (fun _ p => if p = 1 then 1 else 0) "h" 1 "h" 2 none none =
      .soleNode ∧
    JoinAction.soleNode ≠ JoinAction.initAndUpdate := by
  refine ⟨by decide, by decide, by decide, by decide⟩

/-- Downward scan of the finger table in source
`closestPrecedingFinger` (lines 321–334): examine indices `i-1, …, 0`
and return the first successor whose id lies strictly inside the
clockwise arc from `qid` to `kid`; `none` when no finger qualifies.
The source assumes the table has `HASH_BIT_LENGTH` entries; an
out-of-bounds index is skipped here, which is unobservable at that
length. -/
def cpfScan (ft : List FingerTableEntry) (qid kid : Option Nat) : Nat → Option Node
  | 0 => none
  | i + 1 =>
    match ft.get? i with
    | some e =>
      if isInModuloRangeO e.successor.id qid false kid false = true then some e.successor
      else cpfScan ft qid kid i
    | none => cpfScan ft qid kid i

/-- Source `closestPrecedingFinger(id, nodeQueried)` (lines 317–358):
local scan when the queried node is the node itself, otherwise the
remote-call outcome (catch replaces an error by `NULL_NODE`). -/
def closestPrecedingFinger (m : Nat) (selfId : Option Nat) (ft : List FingerTableEntry)
    (rpc : Option Nat → Node → Except Unit Node) (kid : Option Nat)
    (nodeQueried : Node) : Node :=
  if selfId = nodeQueried.id then
    match cpfScan ft nodeQueried.id kid m with
    | some nd => nd
    | none => nodeQueried
  else orNullNode (rpc kid nodeQueried)

/-- Qualification predicate of the scan: finger `i` exists and its
successor's id lies strictly inside the arc `(qid, kid)`. -/
def cpfHit (ft : List FingerTableEntry) (qid kid : Option Nat) (i : Nat) : Bool :=
  match ft.get? i with
  | some e => isInModuloRangeO e.successor.id qid false kid false
  | none => false

/-- Statement of the spec's description of the local scan: take the
first index, going from `m−1` down to `0`, whose finger qualifies, and
return that finger's successor; if none qualifies, return the queried
node itself. -/
def closestPrecedingFingerSpec (m : Nat) (ft : List FingerTableEntry)
    (qid kid : Option Nat) (nodeQueried : Node) : Node :=
  match (List.range m).reverse.find? (cpfHit ft qid kid) with
  | some i =>
    match ft.get? i with
    | some e => e.successor
    | none => nodeQueried
  | none => nodeQueried

theorem cpfScan_eq_find (ft : List FingerTableEntry) (qid kid : Option Nat) :
    ∀ k, cpfScan ft qid kid k =
      ((List.range k).reverse.find? (cpfHit ft qid kid)).bind
        (fun i => (ft.get? i).map (fun e => e.successor))
  | 0 => by simp [cpfScan]
  | k + 1 => by
    have ih := cpfScan_eq_find ft qid kid k
    rw [List.range_succ, List.reverse_append]
    simp only [List.reverse_singleton, List.singleton_append]
    by_cases h : cpfHit ft qid kid k = true
    · rw [List.find?_cons_of_pos _ h]
      unfold cpfHit at h
      cases hg : ft.get? k with
      | none => rw [hg] at h; simp at h
      | some e =>
        rw [hg] at h
        simp only [] at h
        rw [List.get?_eq_getElem?] at hg
        simp [cpfScan, hg, h]
    · rw [List.find?_cons_of_neg _ h]
      unfold cpfHit at h
      cases hg : ft.get? k with
      | none =>
        rw [List.get?_eq_getElem?] at hg
        simp [cpfScan, hg, ih]
      | some e =>
        rw [hg] at h
        simp only [Bool.not_eq_true] at h
        rw [List.get?_eq_getElem?] at hg
        simp [cpfScan, hg, h, ih]

/-- C3: when the queried node is the node itself,
`closestPrecedingFinger` scans the finger table from index `m−1` down
to `0` and returns the first finger whose successor's id lies strictly
inside the clockwise arc from the queried node's id to the sought id
(both endpoints exclusive); if no finger qualifies it returns the
queried node itself. -/
theorem closestPrecedingFinger_local_spec (m : Nat) (selfId : Option Nat)
    (ft : List FingerTableEntry) (rpc : Option Nat → Node → Except Unit Node)
    (kid : Option Nat) (nq : Node) (h : selfId = nq.id) :
    closestPrecedingFinger m selfId ft rpc kid nq =
      closestPrecedingFingerSpec m ft nq.id kid nq := by
  unfold closestPrecedingFinger closestPrecedingFingerSpec
  rw [if_pos h, cpfScan_eq_find]
  cases hf : (List.range m).reverse.find? (cpfHit ft nq.id kid) with
  | none => simp
  | some i =>
    have hhit := List.find?_some hf
    cases hg : ft.get? i with
    | none => unfold cpfHit at hhit; rw [hg] at hhit; simp at hhit
    | some e =>
      rw [List.get?_eq_getElem?] at hg
      simp [hg]

/-- Witness for C3 at a concrete input: node 1 of the three-node ring
{1,3,5} with finger successors {3,3,5}, queried by itself for id 0. -/
theorem closestPrecedingFinger_local_spec_witness :
    closestPrecedingFinger 3 (some 1)
        [⟨some 2, ⟨some 3, none, none⟩⟩, ⟨some 3, ⟨some 3, none, none⟩⟩,
          ⟨some 5, ⟨some 5, none, none⟩⟩]
        (fun _ _ => .error ()) (some 0) ⟨some 1, none, none⟩ =
      closestPrecedingFingerSpec 3
        [⟨some 2, ⟨some 3, none, none⟩⟩, ⟨some 3, ⟨some 3, none, none⟩⟩,
          ⟨some 5, ⟨some 5, none, none⟩⟩]
        (some 1) (some 0) ⟨some 1, none, none⟩ :=
  closestPrecedingFinger_local_spec 3 (some 1)
    [⟨some 2, ⟨some 3, none, none⟩⟩, ⟨some 3, ⟨some 3, none, none⟩⟩,
      ⟨some 5, ⟨some 5, none, none⟩⟩]
    (fun _ _ => .error ()) (some 0) ⟨some 1, none, none⟩ rfl

/-- Source `getSuccessor(nodeQueried)` (lines 261–295): when the
queried node is the node itself (`this.id == nodeQueried.id`), return
`this.fingerTable[0].successor` locally; otherwise the outcome of the
`getSuccessorRemoteHelper` RPC, whose catch replaces an error by a null
node.  The class seeds the finger table with one entry, so the
`headD` default is never consulted on class states. -/
def getSuccessor (selfId : Option Nat) (ft : List FingerTableEntry)
    (rpc : Node → Except Unit Node) (nodeQueried : Node) : Node :=
  if selfId = nodeQueried.id then (ft.headD ⟨none, NULL_NODE⟩).successor
  else orNullNode (rpc nodeQueried)

/-- Source `findSuccessor(id, nodeQueried)` (lines 106–156).  The
fallible sub-calls are oracle parameters: `fp kid` is the outcome of
`this.findPredecessor(id)` (catch replaces an error by `NULL_NODE`);
`gsRpc` is the outcome of the remote leg inside `this.getSuccessor`
(a synchronous failure of `connect` escaping `getSuccessor` is caught
by `findSuccessor`'s own handler with the same `NULL_NODE` result);
`fsRpc kid node` is the outcome of the `findSuccessorRemoteHelper` RPC
(catch replaces an error by `NULL_NODE`).  The guard is
`this.id != undefined && this.id == nodeQueried.id`. -/
def findSuccessor (selfId : Option Nat) (ft : List FingerTableEntry)
    (fp : Option Nat → Except Unit Node) (gsRpc : Node → Except Unit Node)
    (fsRpc : Option Nat → Node → Except Unit Node)
    (kid : Option Nat) (nodeQueried : Node) : Node :=
  if selfId ≠ none ∧ selfId = nodeQueried.id then
    getSuccessor selfId ft gsRpc (orNullNode (fp kid))
  else orNullNode (fsRpc kid nodeQueried)

/-- C5: `findSuccessor` never raises — it is a total function into
`Node` for every outcome of its sub-calls — and each failing sub-call
is replaced by `NULL_NODE`: a failing remote
`findSuccessorRemoteHelper` RPC yields `NULL_NODE`; a failing
`getSuccessor` on the found predecessor yields `NULL_NODE`; and when
the local `findPredecessor` fails, the subsequent `getSuccessor` runs
on `NULL_NODE` (necessarily remotely, as the own id is non-null) and a
failure there again yields `NULL_NODE`. -/
theorem findSuccessor_error_handling (selfId : Option Nat) (ft : List FingerTableEntry)
    (fp : Option Nat → Except Unit Node) (gsRpc : Node → Except Unit Node)
    (fsRpc : Option Nat → Node → Except Unit Node) (kid : Option Nat) (nq : Node) :
    (¬ (selfId ≠ none ∧ selfId = nq.id) → fsRpc kid nq = .error () →
      findSuccessor selfId ft fp gsRpc fsRpc kid nq = NULL_NODE) ∧
    ((selfId ≠ none ∧ selfId = nq.id) → selfId ≠ (orNullNode (fp kid)).id →
      gsRpc (orNullNode (fp kid)) = .error () →
      findSuccessor selfId ft fp gsRpc fsRpc kid nq = NULL_NODE) ∧
    ((selfId ≠ none ∧ selfId = nq.id) → fp kid = .error () →
      gsRpc NULL_NODE = .error () →
      findSuccessor selfId ft fp gsRpc fsRpc kid nq = NULL_NODE) := by
  refine ⟨fun h he => ?_, fun h hne he => ?_, fun h hfp hgs => ?_⟩
  · unfold findSuccessor
    rw [if_neg h, he]
    rfl
  · unfold findSuccessor getSuccessor
    rw [if_pos h, if_neg hne, he]
    rfl
  · unfold findSuccessor getSuccessor
    rw [if_pos h, hfp]
    have hid : selfId ≠ (orNullNode (Except.error ())).id := by
      simpa [orNullNode, NULL_NODE] using h.1
    rw [if_neg hid]
    simp [orNullNode, hgs]

/-- Witness for C5 at a concrete input: a node of id 1 queried about a
node of id 2 forwards remotely; a failing RPC yields `NULL_NODE`. -/
theorem findSuccessor_error_handling_witness :
    findSuccessor (some 1) [] (fun _ => .error ()) (fun _ => .error ())
      (fun _ _ => .error ()) (some 0) ⟨some 2, none, none⟩ = NULL_NODE :=
  (findSuccessor_error_handling (some 1) [] (fun _ => .error ()) (fun _ => .error ())
    (fun _ _ => .error ()) (some 0) ⟨some 2, none, none⟩).1 (by decide) rfl

/-- Source `getSuccessorRemoteHelper(_, callback)` (lines 303–305):
reply with `this.fingerTable[0].successor`, no other logic. -/
def getSuccessorRemoteHelper (ft : List FingerTableEntry) : Node :=
  (ft.headD ⟨none, NULL_NODE⟩).successor

/-- Source `findSuccessorRemoteHelper(idAndNodeQueried, callback)`
(lines 165–191): unpack `{id, node}` from the request, invoke the local
`findSuccessor(id, node)` and reply with its value; the catch handler
(reply `NULL_NODE` if the local call throws) cannot fire because the
embedded `findSuccessor` is total. -/
def findSuccessorRemoteHelper (selfId : Option Nat) (ft : List FingerTableEntry)
    (fp : Option Nat → Except Unit Node) (gsRpc : Node → Except Unit Node)
    (fsRpc : Option Nat → Node → Except Unit Node)
    (kid : Option Nat) (nodeQueried : Node) : Node :=
  findSuccessor selfId ft fp gsRpc fsRpc kid nodeQueried

/-- C8: the remote wrappers are pure relays of the local methods:
`getSuccessorRemoteHelper` replies with exactly
`fingerTable[0].successor`, which is also what the local `getSuccessor`
returns when queried about a node carrying the node's own id; and
`findSuccessorRemoteHelper` replies with exactly the value of the local
`findSuccessor` call on the same arguments. -/
theorem remote_wrappers_relay (selfId : Option Nat) (ft : List FingerTableEntry)
    (fp : Option Nat → Except Unit Node) (gsRpc : Node → Except Unit Node)
    (fsRpc : Option Nat → Node → Except Unit Node) (kid : Option Nat)
    (q nq : Node) (h : selfId = q.id) :
    getSuccessorRemoteHelper ft = (ft.headD ⟨none, NULL_NODE⟩).successor ∧
    getSuccessor selfId ft gsRpc q = getSuccessorRemoteHelper ft ∧
    findSuccessorRemoteHelper selfId ft fp gsRpc fsRpc kid nq =
      findSuccessor selfId ft fp gsRpc fsRpc kid nq := by
  refine ⟨rfl, ?_, rfl⟩
  unfold getSuccessor getSuccessorRemoteHelper
  rw [if_pos h]

/-- Witness for C8 at a concrete input: a node of id 1 with a
single-entry finger table, queried about a node carrying id 1. -/
theorem remote_wrappers_relay_witness :
    getSuccessor (some 1) [⟨some 2, ⟨some 3, none, none⟩⟩] (fun _ => .error ())
        ⟨some 1, none, none⟩ =
      getSuccessorRemoteHelper [⟨some 2, ⟨some 3, none, none⟩⟩] :=
  (remote_wrappers_relay (some 1) [⟨some 2, ⟨some 3, none, none⟩⟩]
    (fun _ => .error ()) (fun _ => .error ()) (fun _ _ => .error ()) (some 0)
    ⟨some 1, none, none⟩ ⟨some 0, none, none⟩ rfl).2.1

/-- Source `fixFingers` random index (line 981):
`Math.ceil(Math.random() * (HASH_BIT_LENGTH - 1))`, where the draw of
`Math.random()` is a value in `[0, 1)` modelled as the rational `q`. -/
def randomIdOf (m : Nat) (q : ℚ) : Nat := (Int.ceil (q * ((m : ℚ) - 1))).toNat

/-- Source `fixFingers()` (lines 979–1001): pick the random index, look
up `findSuccessor(fingerTable[randomId].start, self)` — whose outcome is
the oracle `fsRes`, the catch handler leaving the table unchanged — and
overwrite `fingerTable[randomId].successor` only when the returned id is
non-null. -/
def fixFingersE (m : Nat) (q : ℚ) (fsRes : Except Unit Node)
    (ft : List FingerTableEntry) : List FingerTableEntry :=
  match fsRes with
  | .error _ => ft
  | .ok n =>
    if n.id ≠ none then
      ft.set (randomIdOf m q) ⟨(ft.getD (randomIdOf m q) ⟨none, NULL_NODE⟩).start, n⟩
    else ft

theorem randomIdOf_le (m : Nat) (q : ℚ) (h0 : 0 ≤ q) (h1 : q < 1) :
    randomIdOf m q ≤ m - 1 := by
  unfold randomIdOf
  rcases Nat.eq_zero_or_pos m with hm | hm
  · subst hm
    simp only [Nat.cast_zero]
    have hle : q * ((0 : ℚ) - 1) ≤ 0 := by nlinarith
    have hc : Int.ceil (q * ((0 : ℚ) - 1)) ≤ 0 := by
      simpa using Int.ceil_le.mpr (by simpa using hle)
    omega
  · have hm1 : (1 : ℚ) ≤ (m : ℚ) := by exact_mod_cast hm
    have hle : q * ((m : ℚ) - 1) ≤ (m : ℚ) - 1 := by nlinarith
    have hc : Int.ceil (q * ((m : ℚ) - 1)) ≤ ((m - 1 : Nat) : ℤ) := by
      apply Int.ceil_le.mpr
      push_cast [Nat.cast_sub hm]
      linarith
    omega

theorem randomIdOf_pos (m : Nat) (q : ℚ) (hm : 2 ≤ m) (hq : 0 < q) :
    1 ≤ randomIdOf m q := by
  unfold randomIdOf
  have hm1 : (2 : ℚ) ≤ (m : ℚ) := by exact_mod_cast hm
  have hpos : (0 : ℚ) < q * ((m : ℚ) - 1) := by nlinarith
  have hc : 0 < Int.ceil (q * ((m : ℚ) - 1)) := by
    exact_mod_cast Int.lt_ceil.mpr (by simpa using hpos)
  omega

/-- C7 (amended): each `fixFingers` invocation picks the index
`⌈q·(m−1)⌉` for a draw `q ∈ [0, 1)`; this index lies in `[0, m−1]`
— reaching `0` exactly for the draw `q = 0`, not `[1, m−1]` as claimed —
and the invocation overwrites only `fingerTable[index].successor`, and
only on success: a failing lookup, or one returning a node with a null
id, leaves every finger-table entry unchanged. -/
theorem fixFingers_index_and_frame (m : Nat) (q : ℚ) (ft : List FingerTableEntry)
    (n : Node) (h0 : 0 ≤ q) (h1 : q < 1) :
    randomIdOf m q ≤ m - 1 ∧
    (2 ≤ m → 0 < q → 1 ≤ randomIdOf m q) ∧
    fixFingersE m q (.error ()) ft = ft ∧
    (n.id = none → fixFingersE m q (.ok n) ft = ft) ∧
    (n.id ≠ none →
      fixFingersE m q (.ok n) ft =
        ft.set (randomIdOf m q)
          ⟨(ft.getD (randomIdOf m q) ⟨none, NULL_NODE⟩).start, n⟩ ∧
      ∀ j, j ≠ randomIdOf m q → (fixFingersE m q (.ok n) ft).get? j = ft.get? j) := by
  refine ⟨randomIdOf_le m q h0 h1, fun hm hq => randomIdOf_pos m q hm hq, rfl,
    fun hn => ?_, fun hn => ⟨?_, fun j hj => ?_⟩⟩
  · simp [fixFingersE, hn]
  · simp [fixFingersE, hn]
  · simp only [fixFingersE, if_pos hn]
    rw [List.get?_eq_getElem?, List.get?_eq_getElem?, List.getElem?_set_ne (fun hh => hj hh.symm)]

/-- Witness for C7's amended theorem at a concrete input: the draw
`q = 1/2` with `m = 3` yields an index bounded by `m − 1 = 2`. -/
theorem fixFingers_index_and_frame_witness :
    randomIdOf 3 (1 / 2) ≤ 3 - 1 :=
  (fixFingers_index_and_frame 3 (1 / 2) [] ⟨none, none, none⟩
    (by norm_num) (by norm_num)).1

/-- C7 counterexample to the claim as stated: the draw `q = 0`
(possible for `Math.random()`) gives index
`⌈0 · (m−1)⌉ = 0 ∉ [1, m−1]`, and a successful lookup then overwrites
`fingerTable[0].successor`. -/
theorem fixFingers_index_counterexample :
    randomIdOf 3 0 = 0 ∧
    ¬ (1 ≤ randomIdOf 3 0) ∧
    fixFingersE 3 0 (.ok ⟨some 5, none, none⟩)
        [⟨some 2, ⟨some 1, none, none⟩⟩, ⟨some 3, ⟨some 1, none, none⟩⟩,
          ⟨some 5, ⟨some 1, none, none⟩⟩] =
      [⟨some 2, ⟨some 5, none, none⟩⟩, ⟨some 3, ⟨some 1, none, none⟩⟩,
        ⟨some 5, ⟨some 1, none, none⟩⟩] := by
  have h0 : randomIdOf 3 0 = 0 := by
    simp [randomIdOf]
  refine ⟨h0, by omega, ?_⟩
  simp [fixFingersE, h0]

/-- JavaScript assignment `arr[0] = x`: replace the head, or create the
slot on an empty array. -/
def setAt0 (l : List Node) (x : Node) : List Node :=
  match l with
  | [] => [x]
  | _ :: t => x :: t

/-- JavaScript `arr.splice(k, 1, x)` for `k ≤ arr.length`: remove the
element at position `k` (none exists when `k = arr.length`) and put `x`
there — an interior position is replaced, the position one past the end
is appended. -/
def splice1 (l : List Node) (k : Nat) (x : Node) : List Node :=
  l.take k ++ [x] ++ l.drop (k + 1)

/-- Head-pruning while-loop of `updateSuccessorTable` (lines 721–741),
entered with `successorSeemsOK = false`: re-try `checkSuccessor` (the
k-th call's boolean outcome is `cs k`; the catch handler maps a throw to
false); on success synchronize `successorTable[0]` from
`fingerTable[0].successor` and exit; on failure shift the head off the
list and copy the new head — `undefined`, modelled `none`, on an
emptied list — into `fingerTable[0].successor`.  Arguments: call
counter, current `fingerTable[0].successor` (a proper node whenever the
loop can still run), the list.  Returns the list, the new
`fingerTable[0].successor`, `successorSeemsOK`, and the next call
number. -/
def pruneHeadLoop (cs : Nat → Bool) :
    Nat → Node → List Node → List Node × Option Node × Bool × Nat
  | k, f, [] => ([], some f, false, k)
  | k, f, x :: t =>
    if cs k then (setAt0 (x :: t) f, some f, true, k + 1)
    else
      match t with
      | [] => ([], none, false, k + 1)
      | y :: t2 => pruneHeadLoop cs (k + 1) y (y :: t2)

/-- Bulk-up for-loop of `updateSuccessorTable` (lines 762–793): for `i`
from 0 while `i < table.length ∧ i ≤ m`, query
`getSuccessor(successorTable[i])` (the k-th call's outcome is `g k`;
the catch handler yields a null node, which the non-null-id guard then
rejects); when the reply has a non-null id lying outside the
both-inclusive clockwise arc from the own id to `successorTable[i].id`,
splice it into position `i + 1` and record success.  The fuel is set to
`m + 2`, which exceeds the loop bound `i ≤ m`. -/
def bulkUpLoop (m : Nat) (g : Nat → Except Unit Node) (selfId : Option Nat) :
    Nat → Nat → Nat → List Node → Bool → List Node × Bool × Nat
  | 0, _, k, table, ok => (table, ok, k)
  | fuel + 1, i, k, table, ok =>
    if i < table.length ∧ i ≤ m then
      if (orNullNode (g k)).id ≠ none ∧
          isInModuloRangeO (orNullNode (g k)).id selfId true
            (table.getD i NULL_NODE).id true = false then
        bulkUpLoop m g selfId fuel (i + 1) (k + 1)
          (splice1 table (i + 1) (orNullNode (g k))) true
      else
        bulkUpLoop m g selfId fuel (i + 1) (k + 1) table ok
    else (table, ok, k)

/-- Tail-pruning while-loop of `updateSuccessorTable` (lines 796–821),
entered with `successorSeemsOK` reset to false and
`i = table.length − 1`: while `(¬ok ∨ table.length > m) ∧ i > 0`, query
`getSuccessor(successorTable[i])` (the k-th call's outcome is `g k`); a
successful reply with a non-null id sets `ok`, one with a null id
leaves it, and a failure clears it; then pop the last entry when `¬ok`
or `i ≥ m`, and decrement `i`. -/
def pruneTailLoop (m : Nat) (g : Nat → Except Unit Node) :
    Nat → Nat → Bool → List Node → List Node × Bool × Nat
  | 0, k, ok, table => (table, ok, k)
  | i + 1, k, ok, table =>
    if ok = false ∨ m < table.length then
      pruneTailLoop m g i (k + 1)
        (match g k with
          | .ok n => if n.id ≠ none then true else ok
          | .error _ => false)
        (if (match g k with
              | .ok n => if n.id ≠ none then true else ok
              | .error _ => false) = false ∨ m ≤ i + 1
          then table.dropLast else table)
    else (table, ok, k)

/-- Source `updateSuccessorTable()` (lines 697–830).  Oracles: `cs k`
is the boolean outcome of the k-th `checkSuccessor` call (its catch
maps a throw to false); `g k` is the outcome of the k-th `getSuccessor`
call.  State in: the own NodeRef, `fingerTable[0].successor`, and the
successor table.  Result `.ok`: the new successor table, the new
`fingerTable[0].successor` (`none` = JS `undefined`), and the returned
`successorSeemsOK`.  Result `.error`: the TypeError thrown at line 755
when `fingerTable[0].successor` has become `undefined` and is
dereferenced — which, by the `&&` short-circuit, happens only when the
table is still shorter than `m` there. -/
def updateSuccessorTable (m : Nat) (cs : Nat → Bool) (g : Nat → Except Unit Node)
    (self : Node) (ft0 : Node) (table : List Node) :
    Except Unit (List Node × Option Node × Bool) :=
  let a := if cs 0 then (setAt0 table ft0, some ft0, true, 1)
           else pruneHeadLoop cs 1 ft0 table
  let t2 := if a.1.length < 1 then a.1 ++ [⟨self.id, self.host, self.port⟩] else a.1
  if t2.length < m then
    match a.2.1 with
    | none => .error ()
    | some fnode =>
      if self.id ≠ fnode.id then
        let r := bulkUpLoop m g self.id (m + 2) 0 0 t2 a.2.2.1
        let d := pruneTailLoop m g (r.1.length - 1) r.2.2 false r.1
        .ok (d.1, some fnode, d.2.1)
      else
        let d := pruneTailLoop m g (t2.length - 1) 0 false t2
        .ok (d.1, some fnode, d.2.1)
  else
    let d := pruneTailLoop m g (t2.length - 1) 0 false t2
    .ok (d.1, a.2.1, d.2.1)

theorem splice1_length (l : List Node) (k : Nat) (x : Node) (h : k ≤ l.length) :
    (splice1 l k x).length = if k < l.length then l.length else l.length + 1 := by
  simp only [splice1, List.length_append, List.length_take, List.length_drop,
    List.length_singleton]
  split <;> omega

theorem splice1_length_ge (l : List Node) (k : Nat) (x : Node) (h : k ≤ l.length) :
    l.length ≤ (splice1 l k x).length := by
  rw [splice1_length l k x h]
  split <;> omega

theorem bulkUpLoop_length_mono (m : Nat) (g : Nat → Except Unit Node)
    (selfId : Option Nat) :
    ∀ (fuel i k : Nat) (table : List Node) (ok : Bool),
      table.length ≤ (bulkUpLoop m g selfId fuel i k table ok).1.length
  | 0, _, _, _, _ => le_refl _
  | fuel + 1, i, k, table, ok => by
    simp only [bulkUpLoop]
    split
    · split
      · calc table.length
            ≤ (splice1 table (i + 1) (orNullNode (g k))).length := by
              apply splice1_length_ge
              omega
          _ ≤ _ := bulkUpLoop_length_mono m g selfId fuel (i + 1) (k + 1) _ true
      · exact bulkUpLoop_length_mono m g selfId fuel (i + 1) (k + 1) table ok
    · exact le_refl _

theorem pruneTailLoop_length_ge (m : Nat) (g : Nat → Except Unit Node) :
    ∀ (i k : Nat) (ok : Bool) (table : List Node),
      table.length - i ≤ (pruneTailLoop m g i k ok table).1.length
  | 0, _, _, table => by simp [pruneTailLoop]
  | i + 1, k, ok, table => by
    simp only [pruneTailLoop]
    split
    · have ih := pruneTailLoop_length_ge m g i (k + 1)
        (match g k with
          | .ok n => if n.id ≠ none then true else ok
          | .error _ => false)
        (if (match g k with
              | .ok n => if n.id ≠ none then true else ok
              | .error _ => false) = false ∨ m ≤ i + 1
          then table.dropLast else table)
      have hlen : table.length - 1 ≤
          (if (match g k with
                | .ok n => if n.id ≠ none then true else ok
                | .error _ => false) = false ∨ m ≤ i + 1
            then table.dropLast else table).length := by
        split <;> simp [List.length_dropLast]
      omega
    · simp

/-- C9: every terminating run of `updateSuccessorTable` leaves the
successor table non-empty: when the head-pruning loop empties the list
the node reinserts itself, the tail-pruning loop's `i > 0` guard never
pops the list below one entry, and the bulk-up loop never shortens it,
so the returned list has length at least 1 for every input state and
all oracle outcomes. -/
theorem updateSuccessorTable_nonempty (m : Nat) (cs : Nat → Bool)
    (g : Nat → Except Unit Node) (self ft0 : Node) (table : List Node)
    (t : List Node) (f : Option Node) (b : Bool)
    (h : updateSuccessorTable m cs g self ft0 table = .ok (t, f, b)) :
    0 < t.length := by
  unfold updateSuccessorTable at h
  simp only [] at h
  set a := if cs 0 then (setAt0 table ft0, some ft0, true, 1)
           else pruneHeadLoop cs 1 ft0 table with ha
  set t2 := if a.1.length < 1 then a.1 ++ [⟨self.id, self.host, self.port⟩] else a.1
    with ht2
  have h2 : 0 < t2.length := by
    rw [ht2]
    split
    · simp
    · omega
  have key : ∀ (tb : List Node) (k : Nat), 0 < tb.length →
      0 < (pruneTailLoop m g (tb.length - 1) k false tb).1.length := by
    intro tb k hpos
    have := pruneTailLoop_length_ge m g (tb.length - 1) k false tb
    omega
  split at h
  · split at h
    · exact absurd h (by simp)
    · split at h
      · have hr : 0 < (bulkUpLoop m g self.id (m + 2) 0 0 t2 a.2.2.1).1.length := by
          have := bulkUpLoop_length_mono m g self.id (m + 2) 0 0 t2 a.2.2.1
          omega
        have hfin := key (bulkUpLoop m g self.id (m + 2) 0 0 t2 a.2.2.1).1
          (bulkUpLoop m g self.id (m + 2) 0 0 t2 a.2.2.1).2.2 hr
        injection h with hp
        injection hp with he1 he2
        exact he1 ▸ hfin
      · have hfin := key t2 0 h2
        injection h with hp
        injection hp with he1 he2
        exact he1 ▸ hfin
  · have hfin := key t2 0 h2
    injection h with hp
    injection hp with he1 he2
    exact he1 ▸ hfin

/-- Witness for C9 at a concrete input: a sole node of id 1 whose
successor check succeeds; the run returns the one-entry table, which
the theorem certifies non-empty. -/
theorem updateSuccessorTable_nonempty_witness :
    0 < ([(⟨some 1, none, none⟩ : Node)] : List Node).length :=
  updateSuccessorTable_nonempty 3 (fun _ => true) (fun _ => .ok NULL_NODE)
    ⟨some 1, none, none⟩ ⟨some 1, none, none⟩ [⟨some 1, none, none⟩]
    [⟨some 1, none, none⟩] (some ⟨some 1, none, none⟩) false rfl

/-- C6 (amended): in the bulk-up loop, a slot `i` whose `getSuccessor`
reply has a non-null id outside the both-inclusive clockwise arc
`[selfId, successorTable[i].id]` makes the loop continue on
`splice(i+1, 1, reply)` — which replaces the entry at position `i + 1`
when one exists and appends only when `i + 1` equals the current
length, so the list grows by one only when the qualifying slot is the
last one, not at every qualifying slot. -/
theorem bulkUpLoop_qualifying_step (m : Nat) (g : Nat → Except Unit Node)
    (selfId : Option Nat) (fuel i k : Nat) (table : List Node) (ok : Bool)
    (hi : i < table.length) (him : i ≤ m)
    (hq : (orNullNode (g k)).id ≠ none ∧
      isInModuloRangeO (orNullNode (g k)).id selfId true
        (table.getD i NULL_NODE).id true = false) :
    bulkUpLoop m g selfId (fuel + 1) i k table ok =
      bulkUpLoop m g selfId fuel (i + 1) (k + 1)
        (splice1 table (i + 1) (orNullNode (g k))) true ∧
    (splice1 table (i + 1) (orNullNode (g k))).length =
      if i + 1 < table.length then table.length else table.length + 1 := by
  constructor
  · simp only [bulkUpLoop, if_pos (And.intro hi him), if_pos hq]
  · exact splice1_length table (i + 1) (orNullNode (g k)) (by omega)

/-- Witness for C6's amended theorem at a concrete input: the node of
id 1 with successor table `[3, 5]` and a reply of id 0 at slot 0: the
splice at position 1 replaces the interior entry, leaving the length at
2. -/
theorem bulkUpLoop_qualifying_step_witness :
    (splice1 [⟨some 3, none, none⟩, ⟨some 5, none, none⟩] (0 + 1)
        (orNullNode (Except.ok (⟨some 0, none, none⟩ : Node)))).length =
      if 0 + 1 < ([⟨some 3, none, none⟩, ⟨some 5, none, none⟩] : List Node).length
      then ([⟨some 3, none, none⟩, ⟨some 5, none, none⟩] : List Node).length
      else ([⟨some 3, none, none⟩, ⟨some 5, none, none⟩] : List Node).length + 1 :=
  (bulkUpLoop_qualifying_step 3 (fun _ => Except.ok (⟨some 0, none, none⟩ : Node))
    (some 1) 4 0 0 [⟨some 3, none, none⟩, ⟨some 5, none, none⟩] false
    (by decide) (by decide) (by decide)).2

/-- C6 counterexample to the claim as stated: node of id 1,
`successorTable = [3, 5]`, `m = 3`; the first `getSuccessor` call
returns id 0 (which qualifies at slot 0) and the second a null node
(slot 1 does not qualify).  The claim's per-qualifying-slot insertion
predicts the list grows to length 3, but the loop finishes with
`[3, 0]` of length 2: `splice(1, 1, ·)` replaced the interior entry
rather than inserting. -/
theorem bulkUpLoop_counterexample :
    ((orNullNode (Except.ok (⟨some 0, none, none⟩ : Node))).id ≠ none ∧
      isInModuloRangeO (orNullNode (Except.ok (⟨some 0, none, none⟩ : Node))).id
        (some 1) true
        (([⟨some 3, none, none⟩, ⟨some 5, none, none⟩] : List Node).getD 0 NULL_NODE).id
        true = false) ∧
    (bulkUpLoop 3
        (fun k => if k = 0 then Except.ok (⟨some 0, none, none⟩ : Node)
          else Except.ok NULL_NODE)
        (some 1) 5 0 0 [⟨some 3, none, none⟩, ⟨some 5, none, none⟩] false).1 =
      [⟨some 3, none, none⟩, ⟨some 0, none, none⟩] ∧
    ¬ ((bulkUpLoop 3
        (fun k => if k = 0 then Except.ok (⟨some 0, none, none⟩ : Node)
          else Except.ok NULL_NODE)
        (some 1) 5 0 0 [⟨some 3, none, none⟩, ⟨some 5, none, none⟩] false).1.length =
      ([⟨some 3, none, none⟩, ⟨some 5, none, none⟩] : List Node).length + 1) := by
  refine ⟨by decide, by decide, by decide⟩

/-- C4: the notify RPC handler sets `predecessor = nPrime` exactly when
the current predecessor's id is null or `nPrime.id` lies strictly inside
the clockwise arc `(predecessor.id, selfId)`; otherwise the predecessor
is unchanged. -/
theorem notify_sets_predecessor_iff_cond (st : ChordState) (nPrime : Node) :
    (notify st nPrime).predecessor =
      if st.predecessor.id = none ∨
          isInModuloRangeO nPrime.id st.predecessor.id false st.id false = true
      then nPrime else st.predecessor := by
  unfold notify
  split <;> simp_all

/-- C10: the RPC handlers `setPredecessor` and `notify` modify only the
predecessor field; the finger table, successor table, id, host and port
are unchanged by either handler, for every incoming node. -/
theorem notify_setPredecessor_frame (st : ChordState) (n : Node) :
    (notify st n).fingerTable = st.fingerTable ∧
    (notify st n).successorTable = st.successorTable ∧
    (notify st n).id = st.id ∧
    (notify st n).host = st.host ∧
    (notify st n).port = st.port ∧
    (setPredecessor st n).fingerTable = st.fingerTable ∧
    (setPredecessor st n).successorTable = st.successorTable ∧
    (setPredecessor st n).id = st.id ∧
    (setPredecessor st n).host = st.host ∧
    (setPredecessor st n).port = st.port := by
  unfold notify setPredecessor
  split <;> simp

end Chord
